import Mathlib

/-!
Verification development for the `auto_subtitle` command-line pipeline
(`auto_subtitle/cli.py`).  The pipeline extracts audio from each input
video, transcribes it, turns the transcription segments into subtitle
cues written to an SRT file, and burns subtitles into the video through
an ffmpeg `subtitles` filter.

Times are modelled as rational numbers (the Python floats in play are
small decimal fractions, all exactly representable).  Python `str.strip`
is modelled by `strTrim` and `str.upper` by `strUpper`, over the ASCII
texts in play, where they agree with Python.
-/

/-- A word-level timing entry of a transcription segment, the dict
`{word, start, end}` consumed by `get_subtitles` (cli.py line 115).
The Python key `end` is spelt `stop` because `end` is a Lean keyword. -/
structure Word where
  word : String
  start : ℚ
  stop : ℚ
deriving DecidableEq

/-- A transcription segment as consumed by `get_subtitles` (cli.py lines
114-115): `start`, `end` (here `stop`), `text`, and the optional key
`words`.  `words = none` models a segment dict without the `"words"`
key, `words = some ws` a dict carrying that key (possibly with an empty
list). -/
structure Segment where
  start : ℚ
  stop : ℚ
  text : String
  words : Option (List Word)
deriving DecidableEq

/-- One entry of `subtitle_data` built in `get_subtitles` (cli.py lines
121-132): the dict `{text, start, end}`.  `end` is spelt `stop`. -/
structure Cue where
  text : String
  start : ℚ
  stop : ℚ
deriving DecidableEq

/-- Python `str.upper` (for the ASCII texts in play): upper-cases each
character of the string. -/
def strUpper (s : String) : String :=
  ⟨s.data.map Char.toUpper⟩

/-- Python `str.strip` with no argument: removes leading and trailing
whitespace. -/
def strTrim (s : String) : String :=
  ⟨((s.data.dropWhile Char.isWhitespace).reverse.dropWhile Char.isWhitespace).reverse⟩

/-- cli.py line 115: `segment.get("words", [{"word": segment["text"],
"start": segment["start"], "end": segment["end"]}])`.  Python's
`dict.get` returns the stored value whenever the key is present — even
an empty list — and the one-element fallback list only when the key is
absent. -/
def effectiveWords (seg : Segment) : List Word :=
  match seg.words with
  | none => [{ word := seg.text, start := seg.start, stop := seg.stop }]
  | some ws => ws

/-- cli.py lines 118-132: the loop `for i in range(0, len(words), 2)`.
A full pair yields one cue with the two words stripped, joined by one
space and upper-cased, spanning first word's start to second word's
end; a trailing single word yields one cue from that word alone. -/
def groupPairs : List Word → List Cue
  | [] => []
  | [w] => [{ text := strUpper (strTrim w.word), start := w.start, stop := w.stop }]
  | w1 :: w2 :: rest =>
      { text := strUpper (strTrim w1.word ++ " " ++ strTrim w2.word),
        start := w1.start, stop := w2.stop } :: groupPairs rest

/-- The cues `get_subtitles` appends to `subtitle_data` for one segment
(cli.py lines 114-132). -/
def cuesOfSegment (seg : Segment) : List Cue :=
  groupPairs (effectiveWords seg)

/-- The full `subtitle_data` list built by `get_subtitles` for a
transcription result (cli.py lines 113-132): segments processed in
order, each contributing its cues. -/
def get_subtitles_cues (segments : List Segment) : List Cue :=
  segments.flatMap cuesOfSegment

/-- Zero-pads a natural number to at least two decimal digits. -/
def pad2 (n : ℕ) : String :=
  if n < 10 then "0" ++ toString n else toString n

/-- Zero-pads a natural number to at least three decimal digits. -/
def pad3 (n : ℕ) : String :=
  if n < 10 then "00" ++ toString n
  else if n < 100 then "0" ++ toString n
  else toString n

/-- Modelled from the spec: `format_timestamp` is imported from the
repository's `utils` module (cli.py line 8), whose source is absent
here.  Per the spec (section 4.4) the timestamp is rendered from whole
milliseconds; this is the conversion of seconds to milliseconds,
rounding to the nearest millisecond (half up).  All timestamps of the
pipeline are nonnegative. -/
def msRoundedOf (seconds : ℚ) : ℕ :=
  (⌊seconds * 1000 + 1 / 2⌋).toNat

/-- Modelled from the spec: the `HH:MM:SS,mmm` rendering of a whole
number of milliseconds, hours always included and both seconds
components zero-padded (minutes/seconds to two digits, milliseconds to
three), as the spec's section 4.4 describes. -/
def timestampOfMs (ms : ℕ) : String :=
  pad2 (ms / 3600000) ++ ":" ++ pad2 (ms % 3600000 / 60000) ++ ":" ++
    pad2 (ms % 60000 / 1000) ++ "," ++ pad3 (ms % 1000)

/-- Modelled from the spec: `format_timestamp(seconds,
always_include_hours=True)` as called by `write_styled_srt` (cli.py
lines 143-144). -/
def format_timestamp (seconds : ℚ) : String :=
  timestampOfMs (msRoundedOf seconds)

/-- cli.py lines 142-153, the body of `write_styled_srt`: for the
cue at 1-based index `i` it prints the f-string
`f"{i}\n{start_time} --> {end_time}\n{styled_text}\n"`; Python's
`print` appends one more newline, which forms the blank separator
line. -/
def write_styled_srt_go (i : ℕ) : List Cue → String
  | [] => ""
  | item :: rest =>
      toString i ++ "\n" ++ format_timestamp item.start ++ " --> " ++
        format_timestamp item.stop ++ "\n" ++ item.text ++ "\n" ++ "\n" ++
        write_styled_srt_go (i + 1) rest

/-- cli.py lines 141-153: `write_styled_srt` over `enumerate(subtitle_data,
start=1)`, modelled as the concatenation of everything printed to the
file. -/
def write_styled_srt (subtitle_data : List Cue) : String :=
  write_styled_srt_go 1 subtitle_data

/-- The SRT block shape claim C7 describes for the 1-based index `i`:
index line, time-range line `HH:MM:SS,mmm --> HH:MM:SS,mmm`, display
text, and a blank separator line. -/
def srtClaimBlock (i : ℕ) (c : Cue) : String :=
  toString i ++ "\n" ++ format_timestamp c.start ++ " --> " ++
    format_timestamp c.stop ++ "\n" ++ c.text ++ "\n" ++ "\n"

/-- The SRT document as claim C7 describes it: one `srtClaimBlock` per
cue, indices 1-based in input order. -/
def srtClaimDoc (cues : List Cue) : String :=
  String.join ((cues.enumFrom 1).map fun p => srtClaimBlock p.1 p.2)

/-- cli.py line 10: the module-level constant
`srt_path = 'D:\Programacion\Github\AutoVideo\subtitled_video'`.
None of `\P`, `\G`, `\A`, `\s` is a recognized Python escape, so the
backslashes are kept literally. -/
def srt_path : String :=
  "D:\\Programacion\\Github\\AutoVideo\\subtitled_video"

/-- cli.py line 89: the `force_style` argument passed to the ffmpeg
`subtitles` filter. -/
def force_style : String :=
  "Fontname=Arial,Fontsize=24,PrimaryColour=&H00FFFF&,OutlineColour=&H000000&,BorderStyle=3,Outline=2,Shadow=0,MarginV=20,Alignment=2,Bold=1"

/-- One link of the video filter chain handed to the media engine.
`subtitlesFilter` is the only kind of link cli.py ever builds (line
88); `overlayLink` is the per-cue, time-gated overlay the spec's
CompositionPlan describes, included so that claims counting overlay
links can be stated. -/
inductive FilterLink where
  | subtitlesFilter (srtFile : String) (forceStyle : String)
  | overlayLink (imageRef : String) (gateStart gateEnd : ℚ)
deriving DecidableEq

/-- cli.py lines 75-91, the per-video body of the overlay loop: the
video stream is passed through a single `subtitles` filter whose path
argument is the module constant `srt_path` (no local of that name is
assigned in `main`) and then concatenated with the original audio.
`for path, _ in subtitles.items()` (line 70) binds the per-video
generated srt path to `_` and never uses it, and the loop never looks
at the cues; both are parameters here precisely to record that the
chain depends on neither. -/
def buildVideoFilterChain (generatedSrt : String) (cues : List Cue) : List FilterLink :=
  [FilterLink.subtitlesFilter srt_path force_style]

/-- Number of per-cue overlay links in a filter chain. -/
def numOverlayLinks (chain : List FilterLink) : ℕ :=
  (chain.filter fun l =>
    match l with
    | FilterLink.overlayLink _ _ _ => true
    | _ => false).length

/-- A filesystem side effect of one pipeline run.  `createTempWav` is
the audio file `get_audio` writes into `tempfile.gettempdir()` (cli.py
lines 163-168); `createTempSrt` / `createOutputSrt` is the srt file
`get_subtitles` writes (lines 103-104, 134-135), in the temp directory
when `output_srt` is false and in the output directory otherwise;
`writeOutputVideo` is the rendered video (lines 71, 91).  `deleteFile`
is never emitted: cli.py contains no deletion call on any path. -/
inductive FsEvent where
  | createTempWav (video : String)
  | createTempSrt (video : String)
  | createOutputSrt (video : String)
  | deleteFile (path : String)
  | writeOutputVideo (video : String)
deriving DecidableEq

/-- Whether an event creates a file in the temporary directory. -/
def FsEvent.isTempCreate : FsEvent → Bool
  | .createTempWav _ => true
  | .createTempSrt _ => true
  | _ => false

/-- Whether an event deletes a file. -/
def FsEvent.isDelete : FsEvent → Bool
  | .deleteFile _ => true
  | _ => false

/-- cli.py lines 156-172, `get_audio`: one temp wav created per input
video, in input order; nothing is ever deleted. -/
def get_audio_events (videos : List String) : List FsEvent :=
  videos.map FsEvent.createTempWav

/-- cli.py lines 99-139, `get_subtitles`: one srt file written per
video — into the output directory when `output_srt` holds, into the
temp directory otherwise (lines 103-104); nothing is ever deleted. -/
def get_subtitles_events (videos : List String) (output_srt : Bool) : List FsEvent :=
  videos.map fun v =>
    if output_srt then FsEvent.createOutputSrt v else FsEvent.createTempSrt v

/-- cli.py lines 70-97, the overlay loop of `main`: each video is
rendered in turn; on an `ffmpeg.Error` the except-block prints the
engine's stdout/stderr and then re-`raise`s (lines 92-95), so the loop
stops at the first failing video and no later video is processed.
Returns the events of the loop and the video whose error propagated,
if any. -/
def addSubtitlesLoop (engineOk : String → Bool) : List String → List FsEvent × Option String
  | [] => ([], none)
  | v :: rest =>
      if engineOk v then
        let r := addSubtitlesLoop engineOk rest
        (FsEvent.writeOutputVideo v :: r.1, r.2)
      else ([], some v)

/-- cli.py lines 61-97, the effectful part of `main` after argument
parsing: `get_audio` over all videos, then `get_subtitles` over all
videos (writing srt files, with `output_srt or srt_only` as the srt
flag, line 63-64), then — unless `srt_only` (line 67) — the overlay
loop.  Returns the run's filesystem events in order, and the video at
which an engine error propagated out of `main`, if any. -/
def runMain (videos : List String) (output_srt srt_only : Bool)
    (engineOk : String → Bool) : List FsEvent × Option String :=
  let ev0 := get_audio_events videos ++
    get_subtitles_events videos (output_srt || srt_only)
  if srt_only then (ev0, none)
  else
    let r := addSubtitlesLoop engineOk videos
    (ev0 ++ r.1, r.2)

/-- The display text claim C5 prescribes for a group of words: the
words joined with a single space and case-folded to upper case
(no stripping of the individual words). -/
def c5SpecText (ws : List Word) : String :=
  strUpper (String.intercalate " " (ws.map Word.word))

/-- The groups in which the Cue Builder consumes a word list (cli.py
line 118, `for i in range(0, len(words), 2)`): fixed-size groups of
two, with a smaller trailing group when the number of words is odd.
Every group is nonempty by construction. -/
def wordGroups : List Word → List (List Word)
  | [] => []
  | [w] => [[w]]
  | w1 :: w2 :: rest => [w1, w2] :: wordGroups rest

/-- The cue claim C5 (as amended) prescribes for one group of words:
start from the group's first word, end from its last word, and display
text the group's words each stripped of surrounding whitespace, joined
with a single space, and case-folded to upper case.  The `getD 0`
defaults are never reached: every group `wordGroups` produces is
nonempty. -/
def cueOfGroup (g : List Word) : Cue :=
  { text := strUpper (String.intercalate " " (g.map fun w => strTrim w.word)),
    start := (g.head?.map Word.start).getD 0,
    stop := (g.getLast?.map Word.stop).getD 0 }

/-- The condition under which claim C8 says the Cue Builder must fail
with `MalformedSegmentError`: empty text with no word-level timings
present, or start exceeding end. -/
def shouldFailC8 (seg : Segment) : Prop :=
  (seg.text = "" ∧ seg.words = none) ∨ seg.start > seg.stop

instance (seg : Segment) : Decidable (shouldFailC8 seg) := by
  unfold shouldFailC8; infer_instance

theorem effectiveWords_some {seg : Segment} {ws : List Word} (h : seg.words = some ws) :
    effectiveWords seg = ws := by
  unfold effectiveWords
  rw [h]

theorem groupPairs_length : ∀ ws : List Word, (groupPairs ws).length = (ws.length + 1) / 2
  | [] => rfl
  | [_] => by simp [groupPairs]
  | _ :: _ :: rest => by
      have ih := groupPairs_length rest
      simp only [groupPairs, List.length_cons, ih]
      omega

theorem groupPairs_ne_nil : ∀ {ws : List Word}, ws ≠ [] → groupPairs ws ≠ []
  | [], h => absurd rfl h
  | [_], _ => by simp [groupPairs]
  | _ :: _ :: _, _ => by simp [groupPairs]

theorem groupPairs_getLast_stop :
    ∀ ws : List Word, ((groupPairs ws).getLast?).map Cue.stop = (ws.getLast?).map Word.stop
  | [] => rfl
  | [_] => rfl
  | w1 :: w2 :: rest => by
      cases rest with
      | nil => rfl
      | cons r rs =>
          have ih := groupPairs_getLast_stop (r :: rs)
          have h1 : groupPairs (w1 :: w2 :: r :: rs) =
              { text := strUpper (strTrim w1.word ++ " " ++ strTrim w2.word),
                start := w1.start, stop := w2.stop } :: groupPairs (r :: rs) := rfl
          rw [h1]
          cases hgp : groupPairs (r :: rs) with
          | nil => exact absurd hgp (groupPairs_ne_nil (by simp))
          | cons q qs =>
              rw [hgp] at ih
              rw [List.getLast?_cons_cons, ih, List.getLast?_cons_cons,
                List.getLast?_cons_cons]

theorem groupPairs_starts_sublist :
    ∀ ws : List Word, ((groupPairs ws).map Cue.start).Sublist (ws.map Word.start)
  | [] => List.nil_sublist _
  | [w] => by simp [groupPairs]
  | w1 :: w2 :: rest => by
      have ih := groupPairs_starts_sublist rest
      simp only [groupPairs, List.map_cons]
      exact (ih.cons _).cons₂ _

theorem cues_starts_sublist (segs : List Segment) :
    ((get_subtitles_cues segs).map Cue.start).Sublist
      ((segs.flatMap effectiveWords).map Word.start) := by
  induction segs with
  | nil => simp [get_subtitles_cues]
  | cons s rest ih =>
      simp only [get_subtitles_cues, List.flatMap_cons, List.map_append] at ih ⊢
      exact (groupPairs_starts_sublist (effectiveWords s)).append ih

/-- Claim C4 (corrected): for a segment without word-level timings the
Cue Builder emits exactly one cue with the segment's start/end, but the
display text is the segment text stripped of surrounding whitespace and
upper-cased, not copied verbatim; and a segment whose `words` key is
present but empty yields zero cues, not one. -/
theorem C4_segment_fallback (seg : Segment) :
    (seg.words = none →
      cuesOfSegment seg =
        [{ text := strUpper (strTrim seg.text), start := seg.start, stop := seg.stop }]) ∧
    (seg.words = some [] → cuesOfSegment seg = []) := by
  constructor <;> intro h <;> simp [cuesOfSegment, effectiveWords, h, groupPairs]

/-- Witness for C4: a concrete segment without words yields one cue
with stripped, upper-cased text; a concrete segment with an empty words
list yields no cue. -/
theorem C4_segment_fallback_witness :
    cuesOfSegment { start := 2, stop := 5, text := " Hi there ", words := none } =
      [{ text := "HI THERE", start := 2, stop := 5 }] ∧
    cuesOfSegment { start := 0, stop := 1, text := "y", words := some [] } = [] := by
  constructor
  · have h := (C4_segment_fallback { start := 2, stop := 5, text := " Hi there ", words := none }).1 rfl
    rw [h]
    decide
  · exact (C4_segment_fallback { start := 0, stop := 1, text := "y", words := some [] }).2 rfl

/-- Counterexample to C4 as stated: the fallback cue's text is
upper-cased (`"HELLO WORLD"`), not the segment's verbatim text
(`"hello world"`), and a present-but-empty words list yields zero cues
instead of one. -/
theorem C4_counterexample :
    cuesOfSegment { start := 1, stop := 3, text := "hello world", words := none } =
      [{ text := "HELLO WORLD", start := 1, stop := 3 }] ∧
    ("HELLO WORLD" : String) ≠ "hello world" ∧
    cuesOfSegment { start := 1, stop := 3, text := "x", words := some [] } = [] := by
  decide

theorem groupPairs_eq_groups :
    ∀ ws : List Word, groupPairs ws = (wordGroups ws).map cueOfGroup
  | [] => rfl
  | [w] => rfl
  | w1 :: w2 :: rest => by
      have ih := groupPairs_eq_groups rest
      show ({ text := strUpper (strTrim w1.word ++ " " ++ strTrim w2.word), start := w1.start, stop := w2.stop } : Cue) :: groupPairs rest =
        cueOfGroup [w1, w2] :: (wordGroups rest).map cueOfGroup
      rw [ih]
      rfl

/-- Claim C5 (corrected): every group the Cue Builder consumes —
a pair at any position of the word list, or the trailing single word —
yields the cue whose start is the group's first word's start, whose end
is the group's last word's end, and whose display text is the group's
words each stripped of surrounding whitespace, joined with a single
space, and upper-cased.  (The claim omits the stripping.) -/
theorem C5_word_group :
    (∀ (seg : Segment) (ws : List Word), seg.words = some ws →
      cuesOfSegment seg = (wordGroups ws).map cueOfGroup) ∧
    (∀ ws : List Word, groupPairs ws = (wordGroups ws).map cueOfGroup) := by
  refine ⟨fun seg ws h => ?_, groupPairs_eq_groups⟩
  rw [cuesOfSegment, effectiveWords_some h, groupPairs_eq_groups]

/-- Witness for C5: the claim's own example, the two-word segment
`{"hello" 1.0-1.5, "world" 1.6-3.0}`, yields the single cue
`{start 1.0, end 3.0, text "HELLO WORLD"}`; and a three-word segment
exercises both a pair group and a trailing single-word group. -/
theorem C5_word_group_witness :
    cuesOfSegment { start := 1, stop := 3, text := "hello world", words := some [⟨"hello", 1, mkRat 3 2⟩, ⟨"world", mkRat 8 5, 3⟩] } =
      [{ text := "HELLO WORLD", start := 1, stop := 3 }] ∧
    cuesOfSegment { start := 0, stop := 9, text := "x", words := some [⟨" one", 0, 1⟩, ⟨"two ", 2, 3⟩, ⟨" three", 4, 9⟩] } =
      [{ text := "ONE TWO", start := 0, stop := 3 },
       { text := "THREE", start := 4, stop := 9 }] := by
  constructor
  · have h := C5_word_group.1
      { start := 1, stop := 3, text := "hello world", words := some [⟨"hello", 1, mkRat 3 2⟩, ⟨"world", mkRat 8 5, 3⟩] }
      [⟨"hello", 1, mkRat 3 2⟩, ⟨"world", mkRat 8 5, 3⟩] rfl
    rw [h]
    decide
  · have h := C5_word_group.1
      { start := 0, stop := 9, text := "x", words := some [⟨" one", 0, 1⟩, ⟨"two ", 2, 3⟩, ⟨" three", 4, 9⟩] }
      [⟨" one", 0, 1⟩, ⟨"two ", 2, 3⟩, ⟨" three", 4, 9⟩] rfl
    rw [h]
    decide

/-- Counterexample to C5 as stated: transcription words may carry
surrounding whitespace (Whisper word entries have a leading space); the
code strips each word before joining, so for the group
`[" hello", "world"]` the emitted text `"HELLO WORLD"` differs from the
claim's join-then-upcase text `" HELLO WORLD"`. -/
theorem C5_counterexample :
    (groupPairs [⟨" hello", 1, mkRat 3 2⟩, ⟨"world", mkRat 8 5, 3⟩]).map Cue.text =
      ["HELLO WORLD"] ∧
    c5SpecText [⟨" hello", 1, mkRat 3 2⟩, ⟨"world", mkRat 8 5, 3⟩] = " HELLO WORLD" ∧
    (["HELLO WORLD"] : List String) ≠ [" HELLO WORLD"] := by
  decide

/-- Claim C8 (corrected): the Cue Builder never fails — the code
defines no `MalformedSegmentError` and has no raising path.  A segment
without word timings always yields exactly one cue (its text stripped
and upper-cased), even when the text is empty or the start exceeds the
end. -/
theorem C8_no_failure (s e : ℚ) (t : String) :
    cuesOfSegment { start := s, stop := e, text := t, words := none } =
      [{ text := strUpper (strTrim t), start := s, stop := e }] := rfl

/-- Counterexample to C8 as stated: the segment with empty text, no
words, and start 2 > end 1 satisfies both failure conditions the claim
prescribes, yet the builder — a total function, as in the source —
returns a normal cue for it instead of failing. -/
theorem C8_counterexample :
    shouldFailC8 { start := 2, stop := 1, text := "", words := none } ∧
    cuesOfSegment { start := 2, stop := 1, text := "", words := none } =
      [{ text := "", start := 2, stop := 1 }] := by
  constructor
  · exact Or.inl ⟨rfl, rfl⟩
  · decide

/-- Claim C6 (confirmed): for a segment with N >= 1 word-level timings
and the fixed group size 2, the Cue Builder emits exactly ceil(N/2)
cues — in natural-number arithmetic `(N + 1) / 2`, so a trailing group
of one word still yields a cue — and the last cue's end equals the
last word's end. -/
theorem C6_group_count (seg : Segment) (ws : List Word) (h : seg.words = some ws)
    (hne : ws ≠ []) :
    (cuesOfSegment seg).length = (ws.length + 1) / 2 ∧
    ((cuesOfSegment seg).getLast?).map Cue.stop = (ws.getLast?).map Word.stop := by
  unfold cuesOfSegment
  rw [effectiveWords_some h]
  exact ⟨groupPairs_length ws, groupPairs_getLast_stop ws⟩

/-- Witness for C6: a three-word segment yields ceil(3/2) = 2 cues and
the last cue ends at the third word's end. -/
theorem C6_group_count_witness :
    (cuesOfSegment { start := 0, stop := 9, text := "x y z", words := some [⟨"x", 0, 1⟩, ⟨"y", 2, 3⟩, ⟨"z", 4, 9⟩] }).length = 2 ∧
    ((cuesOfSegment { start := 0, stop := 9, text := "x y z", words := some [⟨"x", 0, 1⟩, ⟨"y", 2, 3⟩, ⟨"z", 4, 9⟩] }).getLast?).map Cue.stop =
      some 9 := by
  have h := C6_group_count
    { start := 0, stop := 9, text := "x y z", words := some [⟨"x", 0, 1⟩, ⟨"y", 2, 3⟩, ⟨"z", 4, 9⟩] }
    [⟨"x", 0, 1⟩, ⟨"y", 2, 3⟩, ⟨"z", 4, 9⟩] rfl (by simp)
  exact ⟨h.1, h.2⟩

/-- Claim C9 (corrected): ordering the segments by their own start
fields and each segment's words internally is not enough — a segment's
later words may start after the next segment's words.  The hypothesis
that makes the cue starts monotone is that the flattened effective word
sequence (each segment's words, or its synthetic fallback word, in
segment order) has non-decreasing starts; every cue start is one of
those word starts, taken in order. -/
theorem C9_monotone_starts (segs : List Segment)
    (h : List.Chain' (· ≤ ·) ((segs.flatMap effectiveWords).map Word.start)) :
    List.Chain' (· ≤ ·) ((get_subtitles_cues segs).map Cue.start) := by
  rw [List.chain'_iff_pairwise] at h ⊢
  exact List.Pairwise.sublist (cues_starts_sublist segs) h

/-- Witness for C9: two segments whose flattened word starts are
0, 1, 2 give cues with non-decreasing starts. -/
theorem C9_monotone_starts_witness :
    List.Chain' (· ≤ ·)
      ((get_subtitles_cues
        [{ start := 0, stop := 2, text := "a b", words := some [⟨"a", 0, 1⟩, ⟨"b", 1, 2⟩] },
         { start := 2, stop := 3, text := "c", words := none }]).map Cue.start) := by
  exact C9_monotone_starts _ ((List.chain'_iff_pairwise).mpr (by decide))

/-- Counterexample to C9 as stated: both segments are ordered by start
(0 <= 1) and each segment's words are internally ordered by start
ascending, yet the emitted cue starts are 0, 12, 1 — the second
adjacent pair violates monotonicity, because the first segment's third
word starts (at 12) after the second segment's only word (at 1). -/
theorem C9_counterexample :
    List.Chain' (· ≤ ·)
      (([{ start := 0, stop := 20, text := "s1", words := some [⟨"a", 0, 1⟩, ⟨"b", 10, 11⟩, ⟨"c", 12, 13⟩] },
         { start := 1, stop := 2, text := "s2", words := some [⟨"d", 1, 2⟩] }] : List Segment).map Segment.start) ∧
    List.Chain' (· ≤ ·)
      ((effectiveWords { start := 0, stop := 20, text := "s1", words := some [⟨"a", 0, 1⟩, ⟨"b", 10, 11⟩, ⟨"c", 12, 13⟩] }).map Word.start) ∧
    List.Chain' (· ≤ ·)
      ((effectiveWords { start := 1, stop := 2, text := "s2", words := some [⟨"d", 1, 2⟩] }).map Word.start) ∧
    ¬ List.Chain' (· ≤ ·)
      ((get_subtitles_cues
        [{ start := 0, stop := 20, text := "s1", words := some [⟨"a", 0, 1⟩, ⟨"b", 10, 11⟩, ⟨"c", 12, 13⟩] },
         { start := 1, stop := 2, text := "s2", words := some [⟨"d", 1, 2⟩] }]).map Cue.start) := by
  refine ⟨(List.chain'_iff_pairwise).mpr (by decide),
    (List.chain'_iff_pairwise).mpr (by decide),
    (List.chain'_iff_pairwise).mpr (by decide), fun hc => ?_⟩
  exact absurd ((List.chain'_iff_pairwise).mp hc) (by decide)

theorem foldl_append_init (l : List String) :
    ∀ s : String, l.foldl (· ++ ·) s = s ++ l.foldl (· ++ ·) "" := by
  induction l with
  | nil => intro s; simp [List.foldl]
  | cons b bs ih =>
      intro s
      simp only [List.foldl]
      rw [ih (s ++ b), ih ("" ++ b)]
      simp [String.append_assoc]

theorem string_join_cons (a : String) (l : List String) :
    String.join (a :: l) = a ++ String.join l := by
  simp only [String.join, List.foldl]
  rw [foldl_append_init l ("" ++ a)]
  simp

theorem write_go_eq_claimDoc :
    ∀ (cues : List Cue) (i : ℕ),
      write_styled_srt_go i cues =
        String.join ((cues.enumFrom i).map fun p => srtClaimBlock p.1 p.2) := by
  intro cues
  induction cues with
  | nil => intro i; rfl
  | cons c cs ih =>
      intro i
      rw [show write_styled_srt_go i (c :: cs) =
            srtClaimBlock i c ++ write_styled_srt_go (i + 1) cs from rfl,
          ih (i + 1)]
      rw [show List.enumFrom i (c :: cs) = (i, c) :: List.enumFrom (i + 1) cs from rfl]
      rw [List.map_cons, string_join_cons]

/-- Claim C7 (confirmed): the SRT document is exactly one block per cue
in input order — index line (1-based), time-range line
`HH:MM:SS,mmm --> HH:MM:SS,mmm` with hours always present and
milliseconds zero-padded to three digits, the display text, and a blank
separator line — and the cue with start 3661.25 s (= 14645/4) and end
3662.0 s renders the time-range line `01:01:01,250 --> 01:01:02,000`. -/
theorem C7_srt_blocks :
    (∀ cues : List Cue, write_styled_srt cues = srtClaimDoc cues) ∧
    write_styled_srt [{ text := "hi", start := mkRat 14645 4, stop := 3662 }] =
      "1\n01:01:01,250 --> 01:01:02,000\nhi\n\n" := by
  constructor
  · intro cues
    exact write_go_eq_claimDoc cues 1
  · have h1 : msRoundedOf (mkRat 14645 4) = 3661250 := by
      unfold msRoundedOf
      rw [Rat.mkRat_eq_div]
      norm_num
      rfl
    have h2 : msRoundedOf (3662 : ℚ) = 3662000 := by
      unfold msRoundedOf
      norm_num
      rfl
    show toString 1 ++ "\n" ++ format_timestamp (mkRat 14645 4) ++ " --> " ++
        format_timestamp 3662 ++ "\n" ++ "hi" ++ "\n" ++ "\n" ++ "" =
      "1\n01:01:01,250 --> 01:01:02,000\nhi\n\n"
    rw [format_timestamp, format_timestamp, h1, h2]
    decide

/-- Claim C1 (corrected): the composition submitted to the media engine
for a video contains no per-cue overlay link at all — it is the single
`subtitles` filter referencing the module constant `srt_path`,
identical for every cue sequence. -/
theorem C1_composition_shape (generatedSrt : String) (cues : List Cue) :
    buildVideoFilterChain generatedSrt cues =
      [FilterLink.subtitlesFilter srt_path force_style] ∧
    numOverlayLinks (buildVideoFilterChain generatedSrt cues) = 0 :=
  ⟨rfl, rfl⟩

/-- Counterexample to C1 as stated: for three concrete non-overlapping
cues (windows [0,1), [2,3), [4,5)) the submitted composition does not
contain three chained overlay links — it contains zero overlay links. -/
theorem C1_counterexample :
    numOverlayLinks
      (buildVideoFilterChain "video1.srt" [⟨"A", 0, 1⟩, ⟨"B", 2, 3⟩, ⟨"C", 4, 5⟩]) ≠ 3 := by
  decide

/-- Claim C10 (confirmed): the subtitle path handed to the `subtitles`
filter is the module-level constant `srt_path`
(`D:\Programacion\Github\AutoVideo\subtitled_video`), not the per-video
srt path `get_subtitles` returned; the filter chain is therefore
identical for every video and independent of the generated subtitle
files. -/
theorem C10_constant_subtitle_path :
    (∀ (g1 g2 : String) (c1 c2 : List Cue),
      buildVideoFilterChain g1 c1 = buildVideoFilterChain g2 c2) ∧
    (∀ (g : String) (c : List Cue),
      buildVideoFilterChain g c = [FilterLink.subtitlesFilter srt_path force_style]) ∧
    srt_path = "D:\\Programacion\\Github\\AutoVideo\\subtitled_video" :=
  ⟨fun _ _ _ _ => rfl, fun _ _ => rfl, rfl⟩

theorem addSubtitlesLoop_no_delete (engineOk : String → Bool) :
    ∀ videos : List String,
      (addSubtitlesLoop engineOk videos).1.filter FsEvent.isDelete = [] ∧
      (addSubtitlesLoop engineOk videos).1.filter FsEvent.isTempCreate = []
  | [] => ⟨rfl, rfl⟩
  | v :: rest => by
      have ih := addSubtitlesLoop_no_delete engineOk rest
      by_cases h : engineOk v = true
      · simp [addSubtitlesLoop, h, List.filter, FsEvent.isDelete, FsEvent.isTempCreate,
          ih.1, ih.2]
      · simp [addSubtitlesLoop, h]

/-- Claim C2 (corrected): the pipeline never deletes anything — no run,
successful or failed, ever emits a file deletion, so every temporary
artifact created during the run (one wav per video and, when no srt
output was requested, one temp srt per video) remains on disk when the
run exits.  (cli.py contains no cleanup call on any path.) -/
theorem C2_no_cleanup (videos : List String) (output_srt srt_only : Bool)
    (engineOk : String → Bool) :
    (runMain videos output_srt srt_only engineOk).1.filter FsEvent.isDelete = [] ∧
    (runMain videos output_srt srt_only engineOk).1.filter FsEvent.isTempCreate =
      videos.map FsEvent.createTempWav ++
        (if output_srt || srt_only then [] else videos.map FsEvent.createTempSrt) := by
  have hwav : (videos.map FsEvent.createTempWav).filter FsEvent.isTempCreate =
      videos.map FsEvent.createTempWav := by
    induction videos with
    | nil => rfl
    | cons v vs ih => simp [List.filter, FsEvent.isTempCreate, ih]
  have hwavd : (videos.map FsEvent.createTempWav).filter FsEvent.isDelete = [] := by
    induction videos with
    | nil => rfl
    | cons v vs ih => simp [List.filter, FsEvent.isDelete, ih]
  have hsrt : ∀ b : Bool, (get_subtitles_events videos b).filter FsEvent.isTempCreate =
      (if b then [] else videos.map FsEvent.createTempSrt) := by
    intro b
    induction videos with
    | nil => cases b <;> rfl
    | cons v vs ih =>
        cases b <;> simp_all [get_subtitles_events, List.filter, FsEvent.isTempCreate]
  have hsrtd : ∀ b : Bool, (get_subtitles_events videos b).filter FsEvent.isDelete = [] := by
    intro b
    induction videos with
    | nil => rfl
    | cons v vs ih =>
        cases b <;> simp_all [get_subtitles_events, List.filter, FsEvent.isDelete]
  have hloop := addSubtitlesLoop_no_delete engineOk videos
  unfold runMain
  by_cases hs : srt_only = true
  · simp [hs, get_audio_events, List.filter_append, hwav, hwavd, hsrt, hsrtd]
  · have hs' : srt_only = false := by simpa using hs
    simp [hs', get_audio_events, List.filter_append, hwav, hwavd, hsrt, hsrtd,
      hloop.1, hloop.2]

/-- Counterexample to C2 as stated: a run over one video with the
engine failing creates the temp wav (and temp srt) for that video,
deletes nothing before exiting, and exits with the engine error —
so not every temporary artifact created during the run was deleted. -/
theorem C2_counterexample :
    FsEvent.createTempWav "a" ∈ (runMain ["a"] false false fun _ => false).1 ∧
    FsEvent.createTempSrt "a" ∈ (runMain ["a"] false false fun _ => false).1 ∧
    (runMain ["a"] false false fun _ => false).1.filter FsEvent.isDelete = [] ∧
    (runMain ["a"] false false fun _ => false).2 = some "a" := by
  decide

theorem addSubtitlesLoop_aborts (engineOk : String → Bool) (v : String)
    (post : List String) (hv : engineOk v = false) :
    ∀ pre : List String, (∀ u ∈ pre, engineOk u = true) →
      addSubtitlesLoop engineOk (pre ++ v :: post) =
        (pre.map FsEvent.writeOutputVideo, some v)
  | [], _ => by simp [addSubtitlesLoop, hv]
  | p :: ps, hpre => by
      have hp : engineOk p = true := hpre p (by simp)
      have ih := addSubtitlesLoop_aborts engineOk v post hv ps
        (fun u hu => hpre u (by simp [hu]))
      simp [addSubtitlesLoop, hp, ih]

/-- Claim C3 (corrected): an engine failure for one video is printed
and then re-raised (cli.py line 95), aborting the batch: the failing
video's error propagates out of `main`, the videos before it were each
rendered, and the videos after it are never processed — they yield no
output and no per-video outcome. -/
theorem C3_batch_abort (engineOk : String → Bool) (pre : List String) (v : String)
    (post : List String) (hpre : ∀ u ∈ pre, engineOk u = true)
    (hv : engineOk v = false) :
    runMain (pre ++ v :: post) false false engineOk =
      (get_audio_events (pre ++ v :: post) ++
        get_subtitles_events (pre ++ v :: post) false ++
        pre.map FsEvent.writeOutputVideo, some v) := by
  unfold runMain
  simp [addSubtitlesLoop_aborts engineOk v post hv pre hpre, List.append_assoc]

/-- Witness for C3: in the batch `["b", "a", "c"]` where the engine
fails exactly on `"a"`, the run renders `"b"`, propagates the error at
`"a"`, and never processes `"c"`. -/
theorem C3_batch_abort_witness :
    runMain ["b", "a", "c"] false false (fun u => u == "b") =
      ([FsEvent.createTempWav "b", FsEvent.createTempWav "a", FsEvent.createTempWav "c",
        FsEvent.createTempSrt "b", FsEvent.createTempSrt "a", FsEvent.createTempSrt "c",
        FsEvent.writeOutputVideo "b"], some "a") := by
  have h := C3_batch_abort (fun u => u == "b") ["b"] "a" ["c"] (by decide) (by decide)
  exact h.trans (by decide)

/-- Counterexample to C3 as stated: with the engine failing on `"a"`
but fine for its sibling `"b"`, the run aborts at `"a"` — the error
propagates out and `"b"` is never rendered, so the sibling gets no
per-video outcome. -/
theorem C3_counterexample :
    (runMain ["a", "b"] false false fun u => u == "b").2 = some "a" ∧
    FsEvent.writeOutputVideo "b" ∉ (runMain ["a", "b"] false false fun u => u == "b").1 := by
  decide
